import Mathlib

/-
Verification of the COCO-Dataclass in-memory dataset engine
(src/structures/coco.py and its record types) against its
natural-language specification.

Modelling conventions:
* Python dataclasses become Lean structures; the open variant families
  (annotation and category) become inductive types, one constructor per
  variant, and the runtime-checkable capability protocols (Indexed,
  Categorized, the panoptic special case) become total accessor
  functions returning Option.
* Python `int` is Lean `Int`.  Numeric payload fields that are `float`
  in the source (area, bbox entries, RLE counts, dense-pose arrays) are
  opaque blobs to the engine - it never reads them - and are modelled
  as `Int`.
* Fallible code (statements that can raise) is modelled with
  `Except String` or `Option`; a raised exception propagates to the
  caller leaving the dataset state unchanged, which the operational
  models reflect by returning the unchanged state.
* The mutable `COCO` object becomes an explicit state record that also
  carries the four `_cached_*_ids` reservation buffers installed by
  `__post_init__`.
* Python object identity for the in-place reindex operations is
  modelled positionally: `reindex_license(lic, n)` on the object stored
  at position `i` of `self.licenses` becomes `reindexLicense d i n`.
* Python truthiness of `self.categories` (falsy when `None` and when
  the empty list) is modelled by `categoriesTruthy`.
-/

/-- Record type of src/structures/info.py. -/
structure Info where
  year : Int := 0
  version : String := ""
  description : String := ""
  contributor : String := ""
  url : String := ""
  date_created : String := ""
deriving DecidableEq, Repr

/-- Record type of src/structures/license.py. -/
structure License where
  id : Int
  name : String := ""
  url : String := ""
deriving DecidableEq, Repr

/-- Record type of src/structures/image.py. -/
structure Image where
  id : Int
  width : Int
  height : Int
  file_name : String
  license : Int := 0
  flickr_url : String := ""
  coco_url : String := ""
  date_captured : String := ""
deriving DecidableEq, Repr

/-- Run length encoding value object (src/structures/annotation.py, RLE). -/
structure RLE where
  counts : List Int := []
  size : List Int := []
deriving DecidableEq, Repr

/-- Segment descriptor embedded in a panoptic record (SegmentInfo). -/
structure SegmentInfo where
  id : Int
  category_id : Int
  area : Int := 0
  bbox : List Int := []
  iscrowd : Int := 0
deriving DecidableEq, Repr

/-- Polygon list or RLE mask, the two shapes of the segmentation payload. -/
inductive Segmentation where
  | polys (ps : List (List Int))
  | rle (r : RLE)
deriving DecidableEq, Repr

/-- Open variant family of src/structures/annotation.py, one constructor
per dataclass. -/
inductive Ann where
  | objectDetection (id image_id category_id : Int) (segmentation : Segmentation)
      (area : Int) (bbox : List Int) (iscrowd : Int)
  | keypointDetection (id image_id category_id : Int) (segmentation : Segmentation)
      (area : Int) (bbox : List Int) (iscrowd : Int)
      (keypoints : List Int) (num_keypoints : Int)
  | stuffSegmentation (id image_id category_id : Int) (segmentation : Segmentation)
      (area : Int) (bbox : List Int) (iscrowd : Int)
  | panopticSegmentation (image_id : Int) (file_name : String)
      (segments_info : List SegmentInfo)
  | imageCaptioning (id image_id : Int) (caption : String)
  | densePose (id image_id category_id is_crowd area : Int) (bbox : List Int)
      (dpI dpU dpV dpX dpY : List Int) (dp_masks : List RLE)
deriving DecidableEq, Repr

/-- Open variant family of src/structures/category.py, one constructor
per dataclass. -/
inductive Category where
  | objectDetection (id : Int) (name supercategory : String)
  | keypointDetection (id : Int) (name supercategory : String)
      (keypoints : List String) (skeleton : List Int)
  | panopticSegmentation (id : Int) (name supercategory : String)
      (isthing : Int) (color : List String)
deriving DecidableEq, Repr

/-- Field `image_id`, present on every variant (the `Annotation` protocol). -/
def Ann.image_id : Ann → Int
  | .objectDetection _ i _ _ _ _ _ => i
  | .keypointDetection _ i _ _ _ _ _ _ _ => i
  | .stuffSegmentation _ i _ _ _ _ _ => i
  | .panopticSegmentation i _ _ => i
  | .imageCaptioning _ i _ => i
  | .densePose _ i _ _ _ _ _ _ _ _ _ _ => i

/-- Field `id` where present (the `Indexed` protocol); the panoptic variant
has no own id. -/
def Ann.annId : Ann → Option Int
  | .objectDetection i _ _ _ _ _ _ => some i
  | .keypointDetection i _ _ _ _ _ _ _ _ => some i
  | .stuffSegmentation i _ _ _ _ _ _ => some i
  | .panopticSegmentation _ _ _ => none
  | .imageCaptioning i _ _ => some i
  | .densePose i _ _ _ _ _ _ _ _ _ _ _ => some i

/-- Field `category_id` where present (the `Categorized` protocol). -/
def Ann.catId : Ann → Option Int
  | .objectDetection _ _ c _ _ _ _ => some c
  | .keypointDetection _ _ c _ _ _ _ _ _ => some c
  | .stuffSegmentation _ _ c _ _ _ _ => some c
  | .panopticSegmentation _ _ _ => none
  | .imageCaptioning _ _ _ => none
  | .densePose _ _ c _ _ _ _ _ _ _ _ _ => some c

/-- Test for the panoptic variant, the documented special case. -/
def Ann.isPanoptic : Ann → Bool
  | .panopticSegmentation _ _ _ => true
  | _ => false

/-- Embedded segment list of a panoptic record, empty otherwise. -/
def Ann.segments : Ann → List SegmentInfo
  | .panopticSegmentation _ _ s => s
  | _ => []

/-- Field `id` of a category variant. -/
def Category.id : Category → Int
  | .objectDetection i _ _ => i
  | .keypointDetection i _ _ _ _ => i
  | .panopticSegmentation i _ _ _ _ => i

/-- Field `name` of a category variant. -/
def Category.name : Category → String
  | .objectDetection _ n _ => n
  | .keypointDetection _ n _ _ _ => n
  | .panopticSegmentation _ n _ _ _ => n

/-- Field `supercategory` of a category variant. -/
def Category.supercategory : Category → String
  | .objectDetection _ _ s => s
  | .keypointDetection _ _ s _ _ => s
  | .panopticSegmentation _ _ s _ _ => s

/-- State of a `COCO` dataclass instance, including the reservation
buffers created by `__post_init__`. -/
structure COCO where
  info : Info
  licenses : List License := []
  categories : Option (List Category) := none
  images : List Image := []
  anns : List Ann := []
  cachedLicenseIds : List Int := []
  cachedImageIds : List Int := []
  cachedCategoryIds : List Int := []
  cachedAnnIds : List Int := []
deriving DecidableEq, Repr

/-- Python truthiness of the `categories` field: falsy when `None` and
when the empty list. -/
def categoriesTruthy : Option (List Category) → Bool
  | none => false
  | some [] => false
  | some (_ :: _) => true

/-- List of categories used by the queries once truthiness has been
checked (empty when falsy). -/
def catList (d : COCO) : List Category :=
  match d.categories with
  | none => []
  | some cs => cs

/-- Property `license_ids`. -/
def licenseIds (d : COCO) : List Int :=
  d.licenses.map License.id

/-- Property `license_names`. -/
def licenseNames (d : COCO) : List String :=
  d.licenses.map License.name

/-- Property `image_ids`. -/
def imageIds (d : COCO) : List Int :=
  d.images.map Image.id

/-- Property `image_file_names`. -/
def imageFileNames (d : COCO) : List String :=
  d.images.map Image.file_name

/-- Property `category_ids` (empty when `categories` is falsy). -/
def categoryIds (d : COCO) : List Int :=
  if categoriesTruthy d.categories then (catList d).map Category.id else []

/-- Property `category_names` (empty when `categories` is falsy). -/
def categoryNames (d : COCO) : List String :=
  if categoriesTruthy d.categories then (catList d).map Category.name else []

/-- Property `annotation_ids`: ids of the `Indexed` records only. -/
def annIds (d : COCO) : List Int :=
  d.anns.filterMap Ann.annId

/-- Maximum of a list, `none` on the empty list (Python `max` raises
`ValueError` there). -/
def listMax : List Int → Option Int
  | [] => none
  | x :: xs => some (xs.foldl max x)

/-- Private helper `__generate_new_id`: `max(present_ids + cached_ids) + 1`,
recorded in the cache; `none` models the `ValueError` raised by `max` on an
empty sequence. -/
def generateNewId (present cached : List Int) : Option (Int × List Int) :=
  match listMax (present ++ cached) with
  | none => none
  | some m => some (m + 1, cached ++ [m + 1])

/-- Method `get_new_license_id`, returning the fresh id and the state with
the grown reservation buffer. -/
def getNewLicenseId (d : COCO) : Option (Int × COCO) :=
  match generateNewId (licenseIds d) d.cachedLicenseIds with
  | none => none
  | some (n, c) => some (n, { d with cachedLicenseIds := c })

/-- Method `get_new_category_id`. -/
def getNewCategoryId (d : COCO) : Option (Int × COCO) :=
  match generateNewId (categoryIds d) d.cachedCategoryIds with
  | none => none
  | some (n, c) => some (n, { d with cachedCategoryIds := c })

/-- Method `get_new_image_id`. -/
def getNewImageId (d : COCO) : Option (Int × COCO) :=
  match generateNewId (imageIds d) d.cachedImageIds with
  | none => none
  | some (n, c) => some (n, { d with cachedImageIds := c })

/-- Method `get_new_annotation_id`. -/
def getNewAnnId (d : COCO) : Option (Int × COCO) :=
  match generateNewId (annIds d) d.cachedAnnIds with
  | none => none
  | some (n, c) => some (n, { d with cachedAnnIds := c })

/-- Message of the `TypeError` raised by the dispatchers. -/
def typeErrorMsg : String := "TypeError: Input argument of unexpected type."

/-- Message for an exhausted `next(...)` generator. -/
def stopIterMsg : String := "StopIteration"

/-- Message for an attribute access on `None`. -/
def attrErrorMsg : String := "AttributeError"

/-- Message of the `ValueError` raised by a failing tuple unpacking. -/
def unpackErrorMsg : String := "ValueError: too many values to unpack"

/-- Message of the `ValueError` raised by the schema dispatchers. -/
def schemaErrorMsg : String := "ValueError: unexpected structure"

/-- Private helper `__get_annotation_category_ids`: the `Categorized`
capability is tested first, then the panoptic special case, else `[-1]`. -/
def annCategoryIds (a : Ann) : List Int :=
  match Ann.catId a with
  | some c => [c]
  | none =>
    if Ann.isPanoptic a then (Ann.segments a).map SegmentInfo.category_id
    else [-1]

/-- Private helper `__get_annotations_category_ids`. -/
def annsCategoryIds (l : List Ann) : List Int :=
  l.flatMap annCategoryIds

/-- Input shapes of `get_license`. -/
inductive LicQ where
  | byId (i : Int)
  | byName (s : String)
  | byImage (im : Image)

/-- Input shapes of `get_category`. -/
inductive CatQ where
  | byId (i : Int)
  | byName (s : String)
  | byAnn (a : Ann)

/-- Input shapes of `get_categories`. -/
inductive CatsQ where
  | bySuper (s : String)
  | byImage (im : Image)
  | byImages (ims : List Image)
  | byAnns (l : List Ann)

/-- Input shapes of `get_image`. -/
inductive ImgQ where
  | byId (i : Int)
  | byFileName (s : String)
  | byAnn (a : Ann)

/-- Input shapes of `get_images`. -/
inductive ImgsQ where
  | byLicenseId (i : Int)
  | byLicenseName (s : String)
  | byLicense (l : License)
  | byCategory (c : Category)
  | byAnns (l : List Ann)
  | byCategories (cs : List Category)

/-- Input shapes of `get_annotations`. -/
inductive AnnsQ where
  | byImageId (i : Int)
  | byFileName (s : String)
  | byImage (im : Image)
  | byImages (ims : List Image)

/-- Input shapes of `get_annotations_by_category`. -/
inductive AnnsByCatQ where
  | byId (i : Int)
  | byName (s : String)
  | byCategory (c : Category)
  | byCategories (cs : List Category)

/-- Method `get_license`: singular lookup returning `none` on a missing
id or name; the by-image shape can exhaust its generator. -/
def getLicense (d : COCO) : LicQ → Except String (Option License)
  | .byId i =>
    if i ∈ licenseIds d then .ok (d.licenses.find? (fun l => decide (l.id = i)))
    else .ok none
  | .byName s =>
    if s ∈ licenseNames d then .ok (d.licenses.find? (fun l => decide (l.name = s)))
    else .ok none
  | .byImage im =>
    if im ∈ d.images then
      match d.licenses.find? (fun l => decide (l.id = im.license)) with
      | some l => .ok (some l)
      | none => .error stopIterMsg
    else .ok none

/-- Set-style deduplication keeping first occurrences, modelling the id
set built by `get_licenses`. -/
def setDedup (l : List Int) : List Int :=
  l.foldl (fun acc x => if x ∈ acc then acc else acc ++ [x]) []

/-- Monadic map over `Except`, modelling a Python comprehension that can
raise at its first failing element. -/
def exMapM {α β : Type} (f : α → Except String β) : List α → Except String (List β)
  | [] => .ok []
  | x :: xs => do
    let y ← f x
    let ys ← exMapM f xs
    pure (y :: ys)

/-- Method `get_licenses`: collects each image's license id (raising when
`get_license` yields `None`), deduplicates, and resolves the ids. -/
def getLicenses (d : COCO) (ims : List Image) : Except String (List License) := do
  let ids ← exMapM (fun im => do
    match (← getLicense d (.byImage im)) with
    | some l => pure l.id
    | none => Except.error attrErrorMsg) ims
  pure ((setDedup ids).filterMap (fun i => d.licenses.find? (fun l => decide (l.id = i))))

/-- Method `get_category`: `None` immediately when `categories` is falsy,
`None` on a missing id or name, generator exhaustion on the by-record shape. -/
def getCategory (d : COCO) : CatQ → Except String (Option Category)
  | .byId i =>
    if ¬ categoriesTruthy d.categories then .ok none
    else if i ∈ categoryIds d then
      .ok ((catList d).find? (fun c => decide (Category.id c = i)))
    else .ok none
  | .byName s =>
    if ¬ categoriesTruthy d.categories then .ok none
    else if s ∈ categoryNames d then
      .ok ((catList d).find? (fun c => decide (Category.name c = s)))
    else .ok none
  | .byAnn a =>
    if ¬ categoriesTruthy d.categories then .ok none
    else if (Ann.catId a).isSome ∨ Ann.isPanoptic a then
      if a ∈ COCO.anns d then
        match (catList d).find? (fun c => decide (Category.id c ∈ annCategoryIds a)) with
        | some c => .ok (some c)
        | none => .error stopIterMsg
      else .ok none
    else .error typeErrorMsg

/-- Annotations of one image (`get_annotations` with an `Image`). -/
def annsOfImage (d : COCO) (im : Image) : List Ann :=
  (COCO.anns d).filter (fun a => decide (Ann.image_id a = im.id))

/-- Annotations of a list of images (`get_annotations` with a list). -/
def annsOfImages (d : COCO) (ims : List Image) : List Ann :=
  (COCO.anns d).filter (fun a => decide (Ann.image_id a ∈ ims.map Image.id))

/-- Method `get_categories`: empty immediately when `categories` is falsy,
else a filter of the category list by the referencing annotations. -/
def getCategories (d : COCO) : CatsQ → Except String (List Category)
  | .bySuper s =>
    if ¬ categoriesTruthy d.categories then .ok []
    else .ok ((catList d).filter (fun c => decide (Category.supercategory c = s)))
  | .byImage im =>
    if ¬ categoriesTruthy d.categories then .ok []
    else .ok ((catList d).filter
      (fun c => decide (Category.id c ∈ annsCategoryIds (annsOfImage d im))))
  | .byImages ims =>
    if ¬ categoriesTruthy d.categories then .ok []
    else .ok ((catList d).filter
      (fun c => decide (Category.id c ∈ annsCategoryIds (annsOfImages d ims))))
  | .byAnns l =>
    if ¬ categoriesTruthy d.categories then .ok []
    else if l.all (fun a => (Ann.catId a).isSome || Ann.isPanoptic a) then
      .ok ((catList d).filter (fun c => decide (Category.id c ∈ annsCategoryIds l)))
    else .error typeErrorMsg

/-- Method `get_image`: singular lookup returning `none` on a missing id
or file name, generator exhaustion on a dangling record reference. -/
def getImage (d : COCO) : ImgQ → Except String (Option Image)
  | .byId i =>
    if i ∈ imageIds d then .ok (d.images.find? (fun im => decide (im.id = i)))
    else .ok none
  | .byFileName s =>
    if s ∈ imageFileNames d then .ok (d.images.find? (fun im => decide (im.file_name = s)))
    else .ok none
  | .byAnn a =>
    if a ∈ COCO.anns d then
      match d.images.find? (fun im => decide (im.id = Ann.image_id a)) with
      | some im => .ok (some im)
      | none => .error stopIterMsg
    else .ok none

/-- Categories of one image as computed inside `get_images`
(`get_categories(image)` with its own truthiness guard). -/
def categoriesOfImage (d : COCO) (im : Image) : List Category :=
  if ¬ categoriesTruthy d.categories then []
  else (catList d).filter (fun c => decide (Category.id c ∈ annsCategoryIds (annsOfImage d im)))

/-- Method `get_images`: the `Category` branches are guarded by
`isinstance(input, Category) and self.categories`, so with falsy
categories those inputs fall through to the trailing `TypeError`. -/
def getImages (d : COCO) : ImgsQ → Except String (List Image)
  | .byLicenseId i => .ok (d.images.filter (fun im => decide (im.license = i)))
  | .byLicenseName s =>
    match d.licenses.find? (fun l => decide (l.name = s)) with
    | some l => .ok (d.images.filter (fun im => decide (im.license = l.id)))
    | none =>
      if d.images = [] then .ok []
      else .error attrErrorMsg
  | .byLicense l => .ok (d.images.filter (fun im => decide (im.license = l.id)))
  | .byCategory c =>
    if categoriesTruthy d.categories then
      .ok (d.images.filter
        (fun im => decide (Category.id c ∈ (categoriesOfImage d im).map Category.id)))
    else .error typeErrorMsg
  | .byAnns l => .ok (d.images.filter (fun im => decide (im.id ∈ l.map Ann.image_id)))
  | .byCategories cs =>
    if cs = [] then .ok []
    else if categoriesTruthy d.categories then
      .ok (cs.flatMap (fun c => d.images.filter
        (fun im => decide (Category.id c ∈ (categoriesOfImage d im).map Category.id))))
    else .error typeErrorMsg

/-- Method `get_annotation`: searches the `Indexed` records; a missing id
raises `TypeError` instead of returning an absent result. -/
def getAnn (d : COCO) (i : Int) : Except String Ann :=
  if i ∈ annIds d then
    match (COCO.anns d).find? (fun a => decide (Ann.annId a = some i)) with
    | some a => .ok a
    | none => .error stopIterMsg
  else .error typeErrorMsg

/-- Filter of `get_annotations` for the file-name shape, which resolves
each record's image and can hit an attribute access on `None`. -/
def annsWithFileName (d : COCO) (s : String) : List Ann → Except String (List Ann)
  | [] => .ok []
  | a :: rest =>
    match d.images.find? (fun im => decide (im.id = Ann.image_id a)) with
    | none => .error attrErrorMsg
    | some im => do
        let r ← annsWithFileName d s rest
        pure (if im.file_name = s then a :: r else r)

/-- Method `get_annotations`. -/
def getAnns (d : COCO) : AnnsQ → Except String (List Ann)
  | .byImageId i => .ok ((COCO.anns d).filter (fun a => decide (Ann.image_id a = i)))
  | .byFileName s => annsWithFileName d s (COCO.anns d)
  | .byImage im => .ok (annsOfImage d im)
  | .byImages ims => .ok (annsOfImages d ims)

/-- Filter of `get_annotations_by_category` for the id shape, accessing
`annotation.category_id` directly. -/
def annsWithCatIdEq (cid : Int) : List Ann → Except String (List Ann)
  | [] => .ok []
  | a :: rest =>
    match Ann.catId a with
    | none => .error attrErrorMsg
    | some c => do
        let r ← annsWithCatIdEq cid rest
        pure (if c = cid then a :: r else r)

/-- Filter of `get_annotations_by_category` for the name shape, resolving
each record's category by id. -/
def annsWithCatName (d : COCO) (s : String) : List Ann → Except String (List Ann)
  | [] => .ok []
  | a :: rest =>
    match Ann.catId a with
    | none => .error attrErrorMsg
    | some cid =>
      match (if categoriesTruthy d.categories then
              (catList d).find? (fun c => decide (Category.id c = cid))
             else none) with
      | none => .error attrErrorMsg
      | some c => do
          let r ← annsWithCatName d s rest
          pure (if Category.name c = s then a :: r else r)

/-- Method `get_annotations_by_category`: empty immediately when
`categories` is falsy or some record is neither `Categorized` nor
panoptic. -/
def getAnnsByCategory (d : COCO) : AnnsByCatQ → Except String (List Ann)
  | .byId i =>
    if ¬ categoriesTruthy d.categories ∨
       ¬ (COCO.anns d).all (fun a => (Ann.catId a).isSome || Ann.isPanoptic a) then .ok []
    else annsWithCatIdEq i (COCO.anns d)
  | .byName s =>
    if ¬ categoriesTruthy d.categories ∨
       ¬ (COCO.anns d).all (fun a => (Ann.catId a).isSome || Ann.isPanoptic a) then .ok []
    else annsWithCatName d s (COCO.anns d)
  | .byCategory c =>
    if ¬ categoriesTruthy d.categories ∨
       ¬ (COCO.anns d).all (fun a => (Ann.catId a).isSome || Ann.isPanoptic a) then .ok []
    else .ok ((COCO.anns d).filter (fun a => decide (Category.id c ∈ annCategoryIds a)))
  | .byCategories cs =>
    if ¬ categoriesTruthy d.categories ∨
       ¬ (COCO.anns d).all (fun a => (Ann.catId a).isSome || Ann.isPanoptic a) then .ok []
    else .ok ((COCO.anns d).filter
      (fun a => decide ((annCategoryIds a).any (fun x => x ∈ cs.map Category.id))))

/-- Message of the `ValueError` raised on a duplicate id insertion. -/
def dupIdMsg : String := "ValueError: id already exists"

/-- Message of the `ValueError` raised on a split percentage outside 0..1. -/
def percentErrorMsg : String := "ValueError: percentage should be between 0 and 1."

/-- Private helper `__trim_cached_license_ids`. -/
def trimCachedLicenseIds (d : COCO) : COCO :=
  { d with cachedLicenseIds := d.cachedLicenseIds.filter (fun c => decide (c ∉ licenseIds d)) }

/-- Private helper `__trim_cached_category_ids`. -/
def trimCachedCategoryIds (d : COCO) : COCO :=
  { d with cachedCategoryIds := d.cachedCategoryIds.filter (fun c => decide (c ∉ categoryIds d)) }

/-- Private helper `__trim_cached_image_ids`. -/
def trimCachedImageIds (d : COCO) : COCO :=
  { d with cachedImageIds := d.cachedImageIds.filter (fun c => decide (c ∉ imageIds d)) }

/-- Private helper `__trim_cached_annotation_ids`. -/
def trimCachedAnnIds (d : COCO) : COCO :=
  { d with cachedAnnIds := d.cachedAnnIds.filter (fun c => decide (c ∉ annIds d)) }

/-- Method `append_license`: raises on a duplicate id (state unchanged),
else appends and trims the reservation buffer. -/
def appendLicense (d : COCO) (l : License) : Except String COCO :=
  if l.id ∈ licenseIds d then .error dupIdMsg
  else .ok (trimCachedLicenseIds { d with licenses := d.licenses ++ [l] })

/-- Method `append_category`: auto-initializes a falsy category collection
before the duplicate check. -/
def appendCategory (d : COCO) (c : Category) : Except String COCO :=
  let d0 := if categoriesTruthy d.categories then d else { d with categories := some [] }
  if Category.id c ∈ categoryIds d0 then .error dupIdMsg
  else .ok (trimCachedCategoryIds { d0 with categories := some (catList d0 ++ [c]) })

/-- Method `append_image`. -/
def appendImage (d : COCO) (im : Image) : Except String COCO :=
  if im.id ∈ imageIds d then .error dupIdMsg
  else .ok (trimCachedImageIds { d with images := d.images ++ [im] })

/-- Method `append_annotation`: the duplicate check applies only to
`Indexed` records. -/
def appendAnn (d : COCO) (a : Ann) : Except String COCO :=
  match Ann.annId a with
  | some i =>
    if i ∈ annIds d then .error dupIdMsg
    else .ok (trimCachedAnnIds { d with anns := COCO.anns d ++ [a] })
  | none => .ok (trimCachedAnnIds { d with anns := COCO.anns d ++ [a] })

/-- Method `remove_annotation`: membership and removal use Python list
semantics, i.e. dataclass value equality, removing the first equal record. -/
def removeAnn (d : COCO) (a : Ann) : COCO :=
  if a ∈ COCO.anns d then { d with anns := (COCO.anns d).erase a } else d

/-- Method `remove_annotaitons` (sic). -/
def removeAnnList (d : COCO) (l : List Ann) : COCO :=
  l.foldl removeAnn d

/-- Method `remove_image` with its cascade flag. -/
def removeImage (d : COCO) (im : Image) (cascade : Bool) : COCO :=
  if im ∈ d.images then
    let d1 := { d with images := d.images.erase im }
    if cascade then removeAnnList d1 (annsOfImage d1 im) else d1
  else d

/-- Method `remove_images`. -/
def removeImageList (d : COCO) (ims : List Image) (cascade : Bool) : COCO :=
  ims.foldl (fun s im => removeImage s im cascade) d

/-- Method `remove_license` with its two cascade flags; `get_images(license)`
is the filter of the images whose foreign key equals the license id. -/
def removeLicense (d : COCO) (l : License) (ri ra : Bool) : COCO :=
  if l ∈ d.licenses then
    if ri then
      removeImageList { d with licenses := d.licenses.erase l }
        (d.images.filter (fun im => decide (im.license = l.id))) ra
    else { d with licenses := d.licenses.erase l }
  else d

/-- Method `trim_annotations`: keep records whose `image_id` resolves. -/
def trimAnns (d : COCO) : COCO :=
  { d with anns := (COCO.anns d).filter (fun a => decide (Ann.image_id a ∈ imageIds d)) }

/-- Method `trim_images`: keep images that are referenced by a record and
whose license id resolves. -/
def trimImages (d : COCO) : COCO :=
  { d with images := d.images.filter (fun im =>
      decide (im.id ∈ (COCO.anns d).map Ann.image_id) && decide (im.license ∈ licenseIds d)) }

/-- Method `trim_categories`: guarded by truthy categories and all records
being `Categorized`. -/
def trimCategories (d : COCO) : COCO :=
  if categoriesTruthy d.categories ∧ (COCO.anns d).all (fun a => (Ann.catId a).isSome) then
    { d with categories := some ((catList d).filter
        (fun c => decide (Category.id c ∈ (COCO.anns d).filterMap Ann.catId))) }
  else d

/-- Method `trim_licenses`: keep licenses referenced by some image. -/
def trimLicenses (d : COCO) : COCO :=
  { d with licenses := d.licenses.filter (fun l => decide (l.id ∈ d.images.map Image.license)) }

/-- Method `trim_dataset`: one pass in the order annotations, images,
categories, licenses. -/
def trimDataset (d : COCO) : COCO :=
  trimLicenses (trimCategories (trimImages (trimAnns d)))

/-- In-place body of `reindex_license` once the new id is known: rewrite
the referencing images (found via the old id) and then overwrite the id of
the record at position `i`. -/
def reindexLicenseCore (d : COCO) (i : Nat) (nid : Int) : COCO :=
  match d.licenses[i]? with
  | none => d
  | some lic =>
    { d with
      images := d.images.map
        (fun im => if im.license = lic.id then { im with license := nid } else im),
      licenses := d.licenses.set i { lic with id := nid } }

/-- Method `reindex_license`: allocates a fresh id when `new_id` is `None`;
no displacement of an occupant happens in this singular method. -/
def reindexLicense (d : COCO) (i : Nat) (newId : Option Int) : COCO :=
  match newId with
  | some n => reindexLicenseCore d i n
  | none =>
    match getNewLicenseId d with
    | some (n, d1) => reindexLicenseCore d1 i n
    | none => d

/-- Displacement step of `reindex_licenses`: when `nid` is occupied, the
first occupant is reindexed to a freshly allocated id. -/
def displaceLicense (d : COCO) (nid : Int) : COCO :=
  if nid ∈ licenseIds d then
    match d.licenses.findIdx? (fun l => decide (l.id = nid)) with
    | some j =>
      match getNewLicenseId d with
      | some (n, d1) => reindexLicenseCore d1 j n
      | none => d
    | none => d
  else d

/-- Integer range `0..n-1`, the default id list of the plural reindexers. -/
def rangeInts (n : Nat) : List Int :=
  (List.range n).map (fun k : Nat => (k : Int))

/-- Defaulting of the id list in `reindex_licenses`: `if not new_ids`
replaces a missing or empty list by `range(len(self.licenses))`. -/
def effectiveIds (d : COCO) (newIds : Option (List Int)) : List Int :=
  match newIds with
  | none => rangeInts d.licenses.length
  | some l => if l = [] then rangeInts d.licenses.length else l

/-- Method `reindex_licenses`: defaulting of the id list, the arity check
(raising leaves the state unchanged), the displacement loop over all new
ids, then the zip loop assigning ids positionally. -/
def reindexLicenses (d : COCO) (newIds : Option (List Int)) : COCO :=
  if (effectiveIds d newIds).length ≠ d.licenses.length then d
  else
    (List.range (effectiveIds d newIds).length).foldl (fun s k =>
      match (effectiveIds d newIds)[k]? with
      | some n => reindexLicenseCore s k n
      | none => s) ((effectiveIds d newIds).foldl displaceLicense d)

/-- Operations of the license collection used by the id-uniqueness claim. -/
inductive LOp where
  | append (l : License)
  | remove (l : License) (ri ra : Bool)
  | reindex (i : Nat) (newId : Option Int)
  | reindexAll (newIds : Option (List Int))
deriving DecidableEq, Repr

/-- Application of one license operation; a raised exception leaves the
state unchanged. -/
def applyLOp (d : COCO) : LOp → COCO
  | .append l =>
    match appendLicense d l with
    | .ok d2 => d2
    | .error _ => d
  | .remove l ri ra => removeLicense d l ri ra
  | .reindex i newId => reindexLicense d i newId
  | .reindexAll ids => reindexLicenses d ids

/-- Safety of one operation: a singular reindex must target an unoccupied
id (or allocate), a plural reindex must pass a duplicate-free id list. -/
def safeLOp (d : COCO) : LOp → Bool
  | .append _ => true
  | .remove _ _ _ => true
  | .reindex _ none => true
  | .reindex _ (some n) => decide (n ∉ licenseIds d)
  | .reindexAll none => true
  | .reindexAll (some l) => decide ((effectiveIds d (some l)).Nodup)

/-- Safety of a whole operation sequence, checked step by step. -/
def safeSeq (d : COCO) : List LOp → Bool
  | [] => true
  | op :: rest => safeLOp d op && safeSeq (applyLOp d op) rest

/-- Keys of `asdict(self)` for the `COCO` dataclass, in field order;
`asdict` always includes the `categories` field, even when `None`. -/
def asdictKeys : List String :=
  ["info", "licenses", "categories", "images", "annotations"]

/-- Tuple unpacking `key, value = s` of one string, which succeeds exactly
when the string has two characters. -/
def strUnpack2 (s : String) : Except String (Char × Char) :=
  match s.data with
  | [a, b] => .ok (a, b)
  | _ => .error unpackErrorMsg

/-- Method `to_dict`: the comprehension iterates `asdict(self)` itself -
its keys - and tuple-unpacks each key string, keeping pairs whose second
component is not `None` (a character never is). -/
def to_dict (_d : COCO) : Except String (List (Char × Char)) := do
  let pairs ← asdictKeys.mapM strUnpack2
  pure (pairs.filter (fun _ => true))

/-- Required keys of the object-detection entry of DICT_TO_ANNOTATION_MAP. -/
def odAnnKeys : List String :=
  ["id", "image_id", "category_id", "segmentation", "area", "bbox", "iscrowd"]

/-- Required keys of the keypoint-detection entry of DICT_TO_ANNOTATION_MAP. -/
def kdAnnKeys : List String :=
  ["id", "image_id", "category_id", "segmentation", "area", "bbox", "iscrowd",
   "keypoints", "skeleton"]

/-- Required keys of the panoptic entry of DICT_TO_ANNOTATION_MAP. -/
def psAnnKeys : List String :=
  ["image_id", "file_name", "segments_info"]

/-- Required keys of the captioning entry of DICT_TO_ANNOTATION_MAP. -/
def icAnnKeys : List String :=
  ["id", "image_id", "caption"]

/-- Required keys of the dense-pose entry of DICT_TO_ANNOTATION_MAP. -/
def dpAnnKeys : List String :=
  ["id", "image_id", "category_id", "is_crowd", "area", "bbox",
   "dp_I", "dp_U", "dp_V", "dp_x", "dp_y", "dp_masks"]

/-- Required keys of the object-detection entry of DICT_TO_CATEGORY_MAP. -/
def odCatKeys : List String :=
  ["id", "name", "supercategory"]

/-- Required keys of the keypoint-detection entry of DICT_TO_CATEGORY_MAP. -/
def kdCatKeys : List String :=
  ["id", "name", "supercategory", "keypoints", "skeleton"]

/-- Required keys of the panoptic entry of DICT_TO_CATEGORY_MAP. -/
def psCatKeys : List String :=
  ["id", "name", "supercategory", "isthing", "color"]

/-- Test `set(req).issubset(keys)`. -/
def subsetB (req keys : List String) : Bool :=
  req.all (fun r => decide (r ∈ keys))

/-- Variants the dispatcher of the open family can construct. -/
inductive AnnTag where
  | objectDetection
  | keypointDetection
  | panopticSegmentation
  | imageCaptioning
  | densePose
deriving DecidableEq, Repr

/-- Variants the category dispatcher can construct. -/
inductive CatTag where
  | objectDetection
  | keypointDetection
  | panopticSegmentation
deriving DecidableEq, Repr

/-- Dispatcher `dict_to_annotation` restricted to its selection logic: the
key-set tests run in source order, object detection first. -/
def dictToAnnTag (keys : List String) : Except String AnnTag :=
  if subsetB odAnnKeys keys then .ok .objectDetection
  else if subsetB kdAnnKeys keys then .ok .keypointDetection
  else if subsetB psAnnKeys keys then .ok .panopticSegmentation
  else if subsetB icAnnKeys keys then .ok .imageCaptioning
  else if subsetB dpAnnKeys keys then .ok .densePose
  else .error schemaErrorMsg

/-- Dispatcher `dict_to_category` restricted to its selection logic. -/
def dictToCatTag (keys : List String) : Except String CatTag :=
  if subsetB odCatKeys keys then .ok .objectDetection
  else if subsetB kdCatKeys keys then .ok .keypointDetection
  else if subsetB psCatKeys keys then .ok .panopticSegmentation
  else .error schemaErrorMsg

/-- One half of `split`: the dataset built for one image partition, with
licenses, records and categories transitively reachable from it and fresh
reservation buffers. -/
def mkPart (d : COCO) (sub : List Image) : Except String COCO := do
  let ls ← getLicenses d sub
  let cats ← getCategories d (.byImages sub)
  pure { info := d.info
         licenses := ls
         categories := some cats
         images := sub
         anns := annsOfImages d sub }

/-- Method `split`, with the shuffled copy of the image list passed
explicitly: `random.shuffle` is external PRNG state, so the model takes
the shuffle result (a permutation of `images`) as a parameter.  The cut
point is `int(len(self.images) * percentage)`. -/
def splitDataset (d : COCO) (shuffled : List Image) (p : ℚ) : Except String (COCO × COCO) :=
  if p > 1 ∨ p < 0 then .error percentErrorMsg
  else do
    let a ← mkPart d (shuffled.take (⌊(d.images.length : ℚ) * p⌋).toNat)
    let b ← mkPart d (shuffled.drop (⌊(d.images.length : ℚ) * p⌋).toNat)
    pure (a, b)

/-- Default metadata record used by the concrete examples. -/
def infoD : Info := {}

/-- Dataset with no licenses and an empty reservation buffer. -/
def dEmptyC10 : COCO := { info := infoD }

/-- Single image of the allocator example. -/
def imgC8 : Image := { id := 4, width := 1, height := 1, file_name := "a" }

/-- Dataset of the allocator example. -/
def dC8 : COCO := { info := infoD, images := [imgC8] }

/-- Stored captioning record of the removal example. -/
def annC5 : Ann := .imageCaptioning 1 1 ""

/-- Captioning record value-equal to no stored record. -/
def annC5absent : Ann := .imageCaptioning 2 1 "x"

/-- License absent from the removal example. -/
def licC5 : License := ⟨3, "q", ""⟩

/-- Dataset of the removal example. -/
def dC5 : COCO := { info := infoD, anns := [annC5] }

/-- Category value passed to the degraded-mode queries. -/
def catC4 : Category := .objectDetection 5 "person" "human"

/-- Image of the degraded-mode example. -/
def imgC4 : Image := { id := 1, width := 2, height := 2, file_name := "a.png" }

/-- Record of the degraded-mode example. -/
def annC4 : Ann := .imageCaptioning 1 1 "hi"

/-- Caption-only dataset: `categories` is `None`. -/
def dC4 : COCO := { info := infoD, images := [imgC4], anns := [annC4] }

/-- License of the lookup example. -/
def licC7 : License := ⟨1, "lic", "u"⟩

/-- Category of the lookup example. -/
def catC7 : Category := .objectDetection 2 "cat" "sup"

/-- Image of the lookup example. -/
def imgC7 : Image := { id := 3, width := 1, height := 1, file_name := "f.png", license := 1 }

/-- Record of the lookup example. -/
def annC7 : Ann := .objectDetection 4 3 2 (.polys []) 0 [] 0

/-- Dataset of the lookup example. -/
def dC7 : COCO :=
  { info := infoD, licenses := [licC7], categories := some [catC7],
    images := [imgC7], anns := [annC7] }

/-- Image with a dangling license reference. -/
def imgC6 : Image := { id := 1, width := 1, height := 1, file_name := "f", license := 5 }

/-- Record referencing the image above. -/
def annC6 : Ann := .imageCaptioning 1 1 ""

/-- Dataset on which one trim pass is not a fixed point: the image is
dropped for its dangling license, orphaning the record. -/
def dC6 : COCO := { info := infoD, images := [imgC6], anns := [annC6] }

/-- License of the well-formed trim example. -/
def licC6 : License := ⟨0, "k", ""⟩

/-- Image of the well-formed trim example. -/
def imgC6w : Image := { id := 1, width := 1, height := 1, file_name := "f", license := 0 }

/-- Dataset with no dangling license references. -/
def dC6w : COCO := { info := infoD, licenses := [licC6], images := [imgC6w], anns := [annC6] }

/-- Dataset of the license-operation examples. -/
def dC2 : COCO := { info := infoD, licenses := [⟨0, "a", ""⟩, ⟨1, "b", ""⟩] }

/-- Operation sequence exercising append, singular reindex with a fresh
id, plural reindex, removal of an absent record, and singular reindex
with allocation. -/
def opsC2 : List LOp :=
  [LOp.append ⟨5, "c", ""⟩,
   LOp.reindex 0 (some 7),
   LOp.reindexAll (some [2, 3, 4]),
   LOp.remove ⟨9, "z", ""⟩ true true,
   LOp.reindex 1 none]

/-- Image builder for the split examples. -/
def mkImg (i lic : Int) : Image :=
  { id := i, width := 1, height := 1, file_name := toString i, license := lic }

/-- Ten images with pairwise distinct ids, every license id dangling. -/
def imgsC9bad : List Image :=
  [mkImg 1 99, mkImg 2 99, mkImg 3 99, mkImg 4 99, mkImg 5 99,
   mkImg 6 99, mkImg 7 99, mkImg 8 99, mkImg 9 99, mkImg 10 99]

/-- Ten-image dataset on which every split raises. -/
def dC9bad : COCO := { info := infoD, images := imgsC9bad }

/-- License of the well-formed split example. -/
def licC9 : License := ⟨0, "l", ""⟩

/-- Ten images with pairwise distinct ids referencing the license. -/
def imgsC9 : List Image :=
  [mkImg 1 0, mkImg 2 0, mkImg 3 0, mkImg 4 0, mkImg 5 0,
   mkImg 6 0, mkImg 7 0, mkImg 8 0, mkImg 9 0, mkImg 10 0]

/-- Well-formed ten-image dataset with two captioning records. -/
def dC9 : COCO :=
  { info := infoD, licenses := [licC9], images := imgsC9,
    anns := [.imageCaptioning 1 1 "a", .imageCaptioning 2 7 "b"] }

/-- Failure of `split` on a dataset for every possible shuffle result:
whatever permutation the seeded PRNG produces, the call raises instead of
returning a pair of datasets. -/
def splitFailsAllPerms (d : COCO) (p : ℚ) : Prop :=
  ∀ l : List Image, l.Perm d.images → ∀ r : COCO × COCO, splitDataset d l p ≠ .ok r

/-- Pure shadow of one zip-loop step of `reindex_licenses` on the id
list alone. -/
def setStep (ids : List Int) (st : List Int) (k : Nat) : List Int :=
  match ids[k]? with
  | some n => st.set k n
  | none => st

/-- Annotations surviving one `trim_dataset` pass. -/
def passAnns (d : COCO) : List Ann :=
  (COCO.anns d).filter (fun a => decide (Ann.image_id a ∈ imageIds d))

/-- Images surviving one `trim_dataset` pass (checked against the
already-trimmed annotations and the not-yet-trimmed licenses). -/
def passImages (d : COCO) : List Image :=
  d.images.filter (fun im =>
    decide (im.id ∈ (passAnns d).map Ann.image_id) && decide (im.license ∈ licenseIds d))

/-- Categories surviving one `trim_dataset` pass. -/
def passCategories (d : COCO) : Option (List Category) :=
  if categoriesTruthy d.categories = true ∧
     (passAnns d).all (fun a => (Ann.catId a).isSome) = true then
    some ((catList d).filter
      (fun c => decide (Category.id c ∈ (passAnns d).filterMap Ann.catId)))
  else d.categories

/-- Licenses surviving one `trim_dataset` pass. -/
def passLicenses (d : COCO) : List License :=
  d.licenses.filter (fun l => decide (l.id ∈ (passImages d).map Image.license))

instance {ε α : Type} [DecidableEq ε] [DecidableEq α] : DecidableEq (Except ε α) := fun x y =>
  match x, y with
  | .ok a, .ok b =>
    if h : a = b then isTrue (by subst h; rfl)
    else isFalse (fun hc => h (by injection hc))
  | .error e, .error f =>
    if h : e = f then isTrue (by subst h; rfl)
    else isFalse (fun hc => h (by injection hc))
  | .ok _, .error _ => isFalse (fun hc => Except.noConfusion hc)
  | .error _, .ok _ => isFalse (fun hc => Except.noConfusion hc)

theorem self_le_foldl_max (xs : List Int) : ∀ x : Int, x ≤ xs.foldl max x := by
  induction xs with
  | nil => intro x; exact le_refl x
  | cons a as ih => intro x; exact le_trans (le_max_left x a) (ih (max x a))

theorem mem_le_foldl_max (xs : List Int) : ∀ (x y : Int), y ∈ xs → y ≤ xs.foldl max x := by
  induction xs with
  | nil => intro x y h; cases h
  | cons a as ih =>
    intro x y h
    rcases List.mem_cons.mp h with h1 | h2
    · subst h1
      exact le_trans (le_max_right x y) (self_le_foldl_max as (max x y))
    · exact ih (max x a) y h2

theorem listMax_le_of_mem {l : List Int} {m x : Int}
    (hm : listMax l = some m) (hx : x ∈ l) : x ≤ m := by
  cases l with
  | nil => cases hx
  | cons a as =>
    have hme : as.foldl max a = m := by simpa [listMax] using hm
    rcases List.mem_cons.mp hx with h1 | h2
    · subst h1; exact hme ▸ self_le_foldl_max as x
    · exact hme ▸ mem_le_foldl_max as a x h2

theorem listMax_isSome {l : List Int} (h : l ≠ []) : ∃ m, listMax l = some m := by
  cases l with
  | nil => exact absurd rfl h
  | cons x xs => exact ⟨xs.foldl max x, rfl⟩

theorem listMax_append_singleton_of {l : List Int} {m : Int} (a : Int)
    (h : listMax l = some m) : listMax (l ++ [a]) = some (max m a) := by
  cases l with
  | nil => simp [listMax] at h
  | cons x xs =>
    have hme : xs.foldl max x = m := by simpa [listMax] using h
    simp only [List.cons_append, listMax, List.foldl_append, List.foldl_cons, List.foldl_nil,
      Option.some.injEq]
    rw [hme]

theorem imageIds_set_cached (d : COCO) (c : List Int) :
    imageIds { d with cachedImageIds := c } = imageIds d := rfl

/-- Claim C1: the boundary functions cannot round-trip, because `to_dict`
iterates the keys of `asdict(self)` and tuple-unpacks each key string
(the first, `info`, has four characters), so every call raises a
`ValueError` instead of producing the mapping. -/
theorem c1_to_dict_always_raises (d : COCO) :
    to_dict d = Except.error unpackErrorMsg := rfl

/-- Claim C10: on a dataset whose license collection and license
reservation buffer are both empty, `get_new_license_id` takes the maximum
of an empty sequence and raises instead of returning an id. -/
theorem c10_empty_allocator_raises (d : COCO)
    (h1 : d.licenses = []) (h2 : d.cachedLicenseIds = []) :
    getNewLicenseId d = none := by
  simp [getNewLicenseId, generateNewId, licenseIds, h1, h2, listMax]

theorem c10_empty_allocator_raises_witness :
    dEmptyC10.licenses = [] ∧ dEmptyC10.cachedLicenseIds = [] ∧
      getNewLicenseId dEmptyC10 = none :=
  ⟨rfl, rfl, c10_empty_allocator_raises dEmptyC10 rfl rfl⟩

/-- Claim C8: with a non-empty union of committed and reserved image ids,
`get_new_image_id` returns `max(existing ∪ reserved) + 1`, records it in
the reservation buffer, and three consecutive uncommitted calls return
pairwise distinct values. -/
theorem c8_allocator_max_plus_one_and_distinct (d : COCO)
    (h : imageIds d ++ d.cachedImageIds ≠ []) :
    ∃ m, listMax (imageIds d ++ d.cachedImageIds) = some m ∧
      ∃ d1 d2 d3,
        getNewImageId d = some (m + 1, d1) ∧
        d1.cachedImageIds = d.cachedImageIds ++ [m + 1] ∧
        getNewImageId d1 = some (m + 1 + 1, d2) ∧
        getNewImageId d2 = some (m + 1 + 1 + 1, d3) ∧
        m + 1 ≠ m + 1 + 1 ∧ m + 1 ≠ m + 1 + 1 + 1 ∧ m + 1 + 1 ≠ m + 1 + 1 + 1 := by
  obtain ⟨m, hm⟩ := listMax_isSome h
  refine ⟨m, hm, ?_⟩
  have hg1 : generateNewId (imageIds d) d.cachedImageIds =
      some (m + 1, d.cachedImageIds ++ [m + 1]) := by
    simp only [generateNewId, hm]
  have h1 : getNewImageId d =
      some (m + 1, { d with cachedImageIds := d.cachedImageIds ++ [m + 1] }) := by
    simp only [getNewImageId, hg1]
  have hm1 : listMax (imageIds d ++ (d.cachedImageIds ++ [m + 1])) = some (m + 1) := by
    rw [← List.append_assoc, listMax_append_singleton_of (m + 1) hm,
      max_eq_right (by omega : m ≤ m + 1)]
  have hg2 : generateNewId (imageIds d) (d.cachedImageIds ++ [m + 1]) =
      some (m + 1 + 1, (d.cachedImageIds ++ [m + 1]) ++ [m + 1 + 1]) := by
    simp only [generateNewId, hm1]
  have h2 : getNewImageId { d with cachedImageIds := d.cachedImageIds ++ [m + 1] } =
      some (m + 1 + 1,
        { d with cachedImageIds := (d.cachedImageIds ++ [m + 1]) ++ [m + 1 + 1] }) := by
    simp only [getNewImageId, imageIds_set_cached, hg2]
  have hm2 : listMax (imageIds d ++ ((d.cachedImageIds ++ [m + 1]) ++ [m + 1 + 1])) =
      some (m + 1 + 1) := by
    rw [← List.append_assoc, listMax_append_singleton_of (m + 1 + 1) hm1,
      max_eq_right (by omega : m + 1 ≤ m + 1 + 1)]
  have hg3 : generateNewId (imageIds d) ((d.cachedImageIds ++ [m + 1]) ++ [m + 1 + 1]) =
      some (m + 1 + 1 + 1, ((d.cachedImageIds ++ [m + 1]) ++ [m + 1 + 1]) ++ [m + 1 + 1 + 1]) := by
    simp only [generateNewId, hm2]
  have h3 : getNewImageId
      { d with cachedImageIds := (d.cachedImageIds ++ [m + 1]) ++ [m + 1 + 1] } =
      some (m + 1 + 1 + 1,
        { d with cachedImageIds :=
            ((d.cachedImageIds ++ [m + 1]) ++ [m + 1 + 1]) ++ [m + 1 + 1 + 1] }) := by
    simp only [getNewImageId, imageIds_set_cached, hg3]
  exact ⟨_, _, _, h1, rfl, h2, h3, by omega, by omega, by omega⟩

theorem c8_allocator_witness :
    (imageIds dC8 ++ dC8.cachedImageIds ≠ []) ∧
      (∃ m, listMax (imageIds dC8 ++ dC8.cachedImageIds) = some m ∧
        ∃ d1 d2 d3,
          getNewImageId dC8 = some (m + 1, d1) ∧
          d1.cachedImageIds = dC8.cachedImageIds ++ [m + 1] ∧
          getNewImageId d1 = some (m + 1 + 1, d2) ∧
          getNewImageId d2 = some (m + 1 + 1 + 1, d3) ∧
          m + 1 ≠ m + 1 + 1 ∧ m + 1 ≠ m + 1 + 1 + 1 ∧ m + 1 + 1 ≠ m + 1 + 1 + 1) :=
  ⟨by decide, c8_allocator_max_plus_one_and_distinct dC8 (by decide)⟩

/-- Claim C5 as amended: removal is a no-op exactly when no stored record
is value-equal to the argument; presence is judged by dataclass value
equality (Python `in` and `list.remove`), and removing a record removes
the first value-equal stored record. -/
theorem c5_remove_value_equality (d : COCO) (a : Ann) (l : License) (ri ra : Bool) :
    (a ∉ COCO.anns d → removeAnn d a = d) ∧
    (l ∉ d.licenses → removeLicense d l ri ra = d) ∧
    (a ∈ COCO.anns d → COCO.anns (removeAnn d a) = (COCO.anns d).erase a) := by
  refine ⟨fun h => ?_, fun h => ?_, fun h => ?_⟩
  · simp [removeAnn, h]
  · simp [removeLicense, h]
  · simp [removeAnn, h]

theorem c5_remove_value_equality_witness :
    (annC5absent ∉ COCO.anns dC5 ∧ licC5 ∉ dC5.licenses) ∧
      removeAnn dC5 annC5absent = dC5 ∧ removeLicense dC5 licC5 true true = dC5 :=
  ⟨by decide,
   (c5_remove_value_equality dC5 annC5absent licC5 true true).1 (by decide),
   (c5_remove_value_equality dC5 annC5absent licC5 true true).2.1 (by decide)⟩

/-- Claim C5 counterexample: a freshly constructed record whose fields
are value-equal to the stored one is "not present by identity", yet
`remove_annotation` removes the stored record, so the operation is not a
no-op. -/
theorem c5_remove_not_by_identity :
    COCO.anns (removeAnn dC5 (Ann.imageCaptioning 1 1 "")) = [] ∧
      removeAnn dC5 (Ann.imageCaptioning 1 1 "") ≠ dC5 := by
  constructor
  · decide
  · decide

/-- Claim C4: with `categories = None` the category queries degrade to an
empty or absent result, but `get_images` called with a `Category` value
(or a non-empty list of them) falls through its guarded branch and raises
`TypeError`, contradicting the never-an-error claim. -/
theorem c4_degraded_mode_get_images_raises :
    getCategories dC4 (.bySuper "human") = .ok [] ∧
    getCategories dC4 (.byImage imgC4) = .ok [] ∧
    getCategories dC4 (.byImages [imgC4]) = .ok [] ∧
    getCategories dC4 (.byAnns [annC4]) = .ok [] ∧
    getCategory dC4 (.byId 5) = .ok none ∧
    getCategory dC4 (.byName "person") = .ok none ∧
    getAnnsByCategory dC4 (.byCategory catC4) = .ok [] ∧
    getImages dC4 (.byCategory catC4) = .error typeErrorMsg ∧
    getImages dC4 (.byCategories [catC4]) = .error typeErrorMsg := by
  refine ⟨?_, ?_, ?_, ?_, ?_, ?_, ?_, ?_, ?_⟩ <;> decide

theorem subsetB_trans {a b c : List String}
    (h1 : subsetB a b = true) (h2 : subsetB b c = true) : subsetB a c = true := by
  simp only [subsetB, List.all_eq_true, decide_eq_true_eq] at h1 h2 ⊢
  intro x hx
  exact h2 x (h1 x hx)

/-- Claim C3 counterexample: a mapping carrying all keypoint-detection
keys (a strict superset of the object-detection keys) is dispatched to
the object-detection variant, not the keypoint-detection one. -/
theorem c3_keypoint_superset_to_object_detection :
    dictToAnnTag kdAnnKeys = .ok AnnTag.objectDetection ∧
      dictToAnnTag kdAnnKeys ≠ .ok AnnTag.keypointDetection := by
  constructor
  · decide
  · decide

/-- Claim C3 as amended: the dispatchers test variants most-general
first, in source order with object detection first, so any mapping whose
keys include all keypoint-detection keys (for categories also all
panoptic keys) is constructed as the object-detection variant; a mapping
matching no variant shape fails with the schema error. -/
theorem c3_dispatch_most_general_first (keys : List String) :
    (subsetB kdAnnKeys keys = true → dictToAnnTag keys = .ok AnnTag.objectDetection) ∧
    (dictToAnnTag keys = .error schemaErrorMsg ↔
      (subsetB odAnnKeys keys = false ∧ subsetB kdAnnKeys keys = false ∧
       subsetB psAnnKeys keys = false ∧ subsetB icAnnKeys keys = false ∧
       subsetB dpAnnKeys keys = false)) ∧
    (subsetB kdCatKeys keys = true → dictToCatTag keys = .ok CatTag.objectDetection) ∧
    (subsetB psCatKeys keys = true → dictToCatTag keys = .ok CatTag.objectDetection) ∧
    (dictToCatTag keys = .error schemaErrorMsg ↔
      (subsetB odCatKeys keys = false ∧ subsetB kdCatKeys keys = false ∧
       subsetB psCatKeys keys = false)) := by
  refine ⟨?_, ?_, ?_, ?_, ?_⟩
  · intro h
    have hod : subsetB odAnnKeys keys = true :=
      subsetB_trans (show subsetB odAnnKeys kdAnnKeys = true by decide) h
    simp [dictToAnnTag, hod]
  · unfold dictToAnnTag
    split_ifs with h1 h2 h3 h4 h5 <;> simp_all
  · intro h
    have hod : subsetB odCatKeys keys = true :=
      subsetB_trans (show subsetB odCatKeys kdCatKeys = true by decide) h
    simp [dictToCatTag, hod]
  · intro h
    have hod : subsetB odCatKeys keys = true :=
      subsetB_trans (show subsetB odCatKeys psCatKeys = true by decide) h
    simp [dictToCatTag, hod]
  · unfold dictToCatTag
    split_ifs with h1 h2 h3 <;> simp_all

theorem c3_dispatch_most_general_first_witness :
    (subsetB kdAnnKeys kdAnnKeys = true ∧ subsetB psCatKeys psCatKeys = true) ∧
      dictToAnnTag kdAnnKeys = .ok AnnTag.objectDetection ∧
      dictToCatTag psCatKeys = .ok CatTag.objectDetection :=
  ⟨by decide,
   (c3_dispatch_most_general_first kdAnnKeys).1 (by decide),
   (c3_dispatch_most_general_first psCatKeys).2.2.2.1 (by decide)⟩

/-- Claim C7: for an absent key the singular lookups `get_license`,
`get_category`, `get_image` (by id and by name) return an absent result
and never raise, whereas `get_annotation` with an absent id raises
`TypeError` instead. -/
theorem c7_singular_lookups (d : COCO) (i : Int) (s : String) :
    (i ∉ licenseIds d → getLicense d (.byId i) = .ok none) ∧
    (s ∉ licenseNames d → getLicense d (.byName s) = .ok none) ∧
    (i ∉ categoryIds d → getCategory d (.byId i) = .ok none) ∧
    (s ∉ categoryNames d → getCategory d (.byName s) = .ok none) ∧
    (i ∉ imageIds d → getImage d (.byId i) = .ok none) ∧
    (s ∉ imageFileNames d → getImage d (.byFileName s) = .ok none) ∧
    (i ∉ annIds d → getAnn d i = .error typeErrorMsg) := by
  refine ⟨fun h => ?_, fun h => ?_, fun h => ?_, fun h => ?_, fun h => ?_, fun h => ?_,
    fun h => ?_⟩
  · simp [getLicense, h]
  · simp [getLicense, h]
  · by_cases ht : categoriesTruthy d.categories <;> simp [getCategory, ht, h]
  · by_cases ht : categoriesTruthy d.categories <;> simp [getCategory, ht, h]
  · simp [getImage, h]
  · simp [getImage, h]
  · simp [getAnn, h]

theorem c7_singular_lookups_witness :
    (99 ∉ licenseIds dC7 ∧ "zz" ∉ licenseNames dC7 ∧ 99 ∉ categoryIds dC7 ∧
      "zz" ∉ categoryNames dC7 ∧ 99 ∉ imageIds dC7 ∧ "zz" ∉ imageFileNames dC7 ∧
      99 ∉ annIds dC7) ∧
    getLicense dC7 (.byId 99) = .ok none ∧
    getLicense dC7 (.byName "zz") = .ok none ∧
    getCategory dC7 (.byId 99) = .ok none ∧
    getCategory dC7 (.byName "zz") = .ok none ∧
    getImage dC7 (.byId 99) = .ok none ∧
    getImage dC7 (.byFileName "zz") = .ok none ∧
    getAnn dC7 99 = .error typeErrorMsg :=
  ⟨by decide,
   (c7_singular_lookups dC7 99 "zz").1 (by decide),
   (c7_singular_lookups dC7 99 "zz").2.1 (by decide),
   (c7_singular_lookups dC7 99 "zz").2.2.1 (by decide),
   (c7_singular_lookups dC7 99 "zz").2.2.2.1 (by decide),
   (c7_singular_lookups dC7 99 "zz").2.2.2.2.1 (by decide),
   (c7_singular_lookups dC7 99 "zz").2.2.2.2.2.1 (by decide),
   (c7_singular_lookups dC7 99 "zz").2.2.2.2.2.2 (by decide)⟩

theorem trimAnns_anns (x : COCO) :
    COCO.anns (trimAnns x) =
      (COCO.anns x).filter (fun a => decide (Ann.image_id a ∈ imageIds x)) := rfl

theorem trimAnns_images (x : COCO) : (trimAnns x).images = x.images := rfl

theorem trimAnns_licenses (x : COCO) : (trimAnns x).licenses = x.licenses := rfl

theorem trimAnns_categories (x : COCO) : (trimAnns x).categories = x.categories := rfl

theorem licenseIds_trimAnns (x : COCO) : licenseIds (trimAnns x) = licenseIds x := rfl

theorem catList_trimAnns (x : COCO) : catList (trimAnns x) = catList x := rfl

theorem trimImages_anns (x : COCO) : COCO.anns (trimImages x) = COCO.anns x := rfl

theorem trimImages_images (x : COCO) :
    (trimImages x).images = x.images.filter (fun im =>
      decide (im.id ∈ (COCO.anns x).map Ann.image_id) &&
      decide (im.license ∈ licenseIds x)) := rfl

theorem trimImages_licenses (x : COCO) : (trimImages x).licenses = x.licenses := rfl

theorem trimImages_categories (x : COCO) : (trimImages x).categories = x.categories := rfl

theorem catList_trimImages (x : COCO) : catList (trimImages x) = catList x := rfl

theorem trimCategories_anns (x : COCO) : COCO.anns (trimCategories x) = COCO.anns x := by
  unfold trimCategories
  split
  · rfl
  · rfl

theorem trimCategories_images (x : COCO) : (trimCategories x).images = x.images := by
  unfold trimCategories
  split
  · rfl
  · rfl

theorem trimCategories_licenses (x : COCO) : (trimCategories x).licenses = x.licenses := by
  unfold trimCategories
  split
  · rfl
  · rfl

theorem trimCategories_categories (x : COCO) :
    (trimCategories x).categories =
      if categoriesTruthy x.categories = true ∧
         (COCO.anns x).all (fun a => (Ann.catId a).isSome) = true then
        some ((catList x).filter
          (fun c => decide (Category.id c ∈ (COCO.anns x).filterMap Ann.catId)))
      else x.categories := by
  unfold trimCategories
  split
  case isTrue hg => rfl
  case isFalse hg => rfl

theorem trimLicenses_anns (x : COCO) : COCO.anns (trimLicenses x) = COCO.anns x := rfl

theorem trimLicenses_images (x : COCO) : (trimLicenses x).images = x.images := rfl

theorem trimLicenses_categories (x : COCO) : (trimLicenses x).categories = x.categories := rfl

theorem trimLicenses_licenses (x : COCO) :
    (trimLicenses x).licenses =
      x.licenses.filter (fun l => decide (l.id ∈ x.images.map Image.license)) := rfl

theorem trimAnns_stable (x : COCO) (h : ∀ a ∈ COCO.anns x, Ann.image_id a ∈ imageIds x) :
    trimAnns x = x := by
  have hf : (COCO.anns x).filter (fun a => decide (Ann.image_id a ∈ imageIds x)) =
      COCO.anns x :=
    List.filter_eq_self.mpr (fun a ha => by simpa using h a ha)
  unfold trimAnns
  rw [hf]

theorem trimImages_stable (x : COCO)
    (h : ∀ im ∈ x.images,
      im.id ∈ (COCO.anns x).map Ann.image_id ∧ im.license ∈ licenseIds x) :
    trimImages x = x := by
  have hf : x.images.filter (fun im =>
      decide (im.id ∈ (COCO.anns x).map Ann.image_id) &&
      decide (im.license ∈ licenseIds x)) = x.images :=
    List.filter_eq_self.mpr (fun im him => by
      simp only [Bool.and_eq_true, decide_eq_true_eq]
      exact h im him)
  unfold trimImages
  rw [hf]

theorem trimLicenses_stable (x : COCO)
    (h : ∀ l ∈ x.licenses, l.id ∈ x.images.map Image.license) :
    trimLicenses x = x := by
  have hf : x.licenses.filter (fun l => decide (l.id ∈ x.images.map Image.license)) =
      x.licenses :=
    List.filter_eq_self.mpr (fun l hl => by simpa using h l hl)
  unfold trimLicenses
  rw [hf]

theorem trimCategories_noop (x : COCO)
    (h : ¬ (categoriesTruthy x.categories = true ∧
            (COCO.anns x).all (fun a => (Ann.catId a).isSome) = true)) :
    trimCategories x = x := by
  unfold trimCategories
  rw [if_neg h]

theorem trimCategories_stable (x : COCO)
    (h : ∀ c ∈ catList x, Category.id c ∈ (COCO.anns x).filterMap Ann.catId) :
    trimCategories x = x := by
  unfold trimCategories
  split
  case isTrue hg =>
    have hf : (catList x).filter
        (fun c => decide (Category.id c ∈ (COCO.anns x).filterMap Ann.catId)) = catList x :=
      List.filter_eq_self.mpr (fun c hc => by simpa using h c hc)
    rw [hf]
    obtain ⟨ht, _⟩ := hg
    cases hcats : x.categories with
    | none => rw [hcats] at ht; simp [categoriesTruthy] at ht
    | some cs =>
      have hcl : catList x = cs := by unfold catList; rw [hcats]
      rw [hcl, ← hcats]
  case isFalse hg => rfl

/-- Claim C6 as amended: on a dataset in which every image's license id
resolves, `trim_dataset` is idempotent; with a dangling license
reference the first pass can remove an image and orphan its records,
which only the second pass removes. -/
theorem c6_trim_idempotent_amended (d : COCO)
    (h : ∀ im ∈ d.images, im.license ∈ licenseIds d) :
    trimDataset (trimDataset d) = trimDataset d := by
  have fact1 : COCO.anns (trimDataset d) = passAnns d := by
    simp only [trimDataset, trimLicenses_anns, trimCategories_anns, trimImages_anns,
      trimAnns_anns, passAnns]
  have fact2 : (trimDataset d).images = passImages d := by
    simp only [trimDataset, trimLicenses_images, trimCategories_images, trimImages_images,
      trimAnns_images, trimAnns_anns, licenseIds_trimAnns, passImages, passAnns]
  have fact3 : (trimDataset d).licenses = passLicenses d := by
    simp only [trimDataset, trimLicenses_licenses, trimCategories_licenses,
      trimCategories_images, trimImages_licenses, trimImages_images, trimAnns_licenses,
      trimAnns_images, trimAnns_anns, licenseIds_trimAnns, passLicenses, passImages, passAnns]
  have fact4 : (trimDataset d).categories = passCategories d := by
    simp only [trimDataset, trimLicenses_categories, trimCategories_categories,
      trimImages_categories, trimImages_anns, trimAnns_categories, trimAnns_anns,
      catList_trimImages, catList_trimAnns, passCategories, passAnns]
  have stepA : trimAnns (trimDataset d) = trimDataset d := by
    apply trimAnns_stable
    intro a ha
    rw [fact1] at ha
    obtain ⟨haAnns, hdec⟩ := List.mem_filter.mp ha
    have hid : Ann.image_id a ∈ imageIds d := by simpa using hdec
    have hid2 : Ann.image_id a ∈ d.images.map Image.id := hid
    obtain ⟨im, himd, himeq⟩ := List.mem_map.mp hid2
    show Ann.image_id a ∈ (trimDataset d).images.map Image.id
    rw [fact2]
    refine List.mem_map.mpr ⟨im, ?_, himeq⟩
    refine List.mem_filter.mpr ⟨himd, ?_⟩
    simp only [Bool.and_eq_true, decide_eq_true_eq]
    exact ⟨List.mem_map.mpr ⟨a, ha, himeq.symm⟩, h im himd⟩
  have stepB : trimImages (trimDataset d) = trimDataset d := by
    apply trimImages_stable
    intro im him
    rw [fact2] at him
    obtain ⟨himd, hcond⟩ := List.mem_filter.mp him
    simp only [Bool.and_eq_true, decide_eq_true_eq] at hcond
    obtain ⟨hr, hlic⟩ := hcond
    constructor
    · rw [fact1]; exact hr
    · show im.license ∈ (trimDataset d).licenses.map License.id
      rw [fact3]
      have hlic2 : im.license ∈ d.licenses.map License.id := hlic
      obtain ⟨l, hld, hleq⟩ := List.mem_map.mp hlic2
      refine List.mem_map.mpr ⟨l, ?_, hleq⟩
      refine List.mem_filter.mpr ⟨hld, ?_⟩
      simp only [decide_eq_true_eq]
      exact List.mem_map.mpr ⟨im, him, hleq.symm⟩
  have stepC : trimCategories (trimDataset d) = trimDataset d := by
    by_cases hg : categoriesTruthy d.categories = true ∧
        (passAnns d).all (fun a => (Ann.catId a).isSome) = true
    · apply trimCategories_stable
      intro c hc
      have hc4 : (trimDataset d).categories = some ((catList d).filter
          (fun c => decide (Category.id c ∈ (passAnns d).filterMap Ann.catId))) := by
        rw [fact4]; unfold passCategories; rw [if_pos hg]
      have hcat : catList (trimDataset d) = (catList d).filter
          (fun c => decide (Category.id c ∈ (passAnns d).filterMap Ann.catId)) := by
        unfold catList; rw [hc4]; rfl
      rw [hcat] at hc
      obtain ⟨hcd, hdec⟩ := List.mem_filter.mp hc
      rw [fact1]
      simpa using hdec
    · apply trimCategories_noop
      intro hcontra
      apply hg
      obtain ⟨ht, hall⟩ := hcontra
      rw [fact1] at hall
      rw [fact4] at ht
      have hpc : passCategories d = d.categories := by unfold passCategories; rw [if_neg hg]
      rw [hpc] at ht
      exact ⟨ht, hall⟩
  have chain : trimDataset (trimDataset d) =
      trimLicenses (trimCategories (trimImages (trimAnns (trimDataset d)))) := rfl
  rw [chain, stepA, stepB, stepC]
  apply trimLicenses_stable
  intro l hl
  rw [fact3] at hl
  obtain ⟨hld, hdec⟩ := List.mem_filter.mp hl
  have hd2 : l.id ∈ (passImages d).map Image.license := by simpa using hdec
  rw [fact2]
  exact hd2

theorem c6_trim_idempotent_witness :
    (∀ im ∈ dC6w.images, im.license ∈ licenseIds dC6w) ∧
      trimDataset (trimDataset dC6w) = trimDataset dC6w :=
  ⟨by decide, c6_trim_idempotent_amended dC6w (by decide)⟩

/-- Claim C6 counterexample: on a dataset whose single image has a
dangling license id, the first pass keeps the image's record but removes
the image, and only the second pass removes the orphaned record, so
`trim_dataset` applied twice differs from once. -/
theorem c6_trim_not_idempotent : trimDataset (trimDataset dC6) ≠ trimDataset dC6 := by
  decide

theorem nodup_map_injective {α β : Type} (f : α → β)
    (hf : ∀ a b, f a = f b → a = b) :
    ∀ {l : List α}, l.Nodup → (l.map f).Nodup := by
  intro l
  induction l with
  | nil => intro _; simp
  | cons x xs ih =>
    intro h
    rw [List.map_cons, List.nodup_cons]
    rw [List.nodup_cons] at h
    obtain ⟨hx, hxs⟩ := h
    refine ⟨?_, ih hxs⟩
    intro hmem
    obtain ⟨y, hy, hyeq⟩ := List.mem_map.mp hmem
    exact hx (hf y x hyeq ▸ hy)

theorem rangeInts_nodup (n : Nat) : (rangeInts n).Nodup := by
  unfold rangeInts
  refine nodup_map_injective (fun k : Nat => (k : Int)) ?_ (List.nodup_range n)
  intro a b hab
  simp only at hab
  exact_mod_cast hab

theorem nodup_set_of_not_mem :
    ∀ {l : List Int} {i : Nat} {n : Int}, l.Nodup → n ∉ l → (l.set i n).Nodup := by
  intro l
  induction l with
  | nil => intro i n _ _; simp
  | cons a as ih =>
    intro i n h hn
    cases i with
    | zero =>
      rw [List.set_cons_zero, List.nodup_cons]
      rw [List.nodup_cons] at h
      exact ⟨fun hc => hn (List.mem_cons_of_mem a hc), h.2⟩
    | succ j =>
      rw [List.set_cons_succ, List.nodup_cons]
      rw [List.nodup_cons] at h
      refine ⟨?_, ih h.2 (fun hna => hn (List.mem_cons_of_mem a hna))⟩
      intro hmem
      rcases List.mem_or_eq_of_mem_set hmem with h1 | h2
      · exact h.1 h1
      · exact hn (by rw [← h2]; exact List.mem_cons_self a as)

theorem getNewLicenseId_some {d : COCO} {n : Int} {d1 : COCO}
    (h : getNewLicenseId d = some (n, d1)) :
    d1.licenses = d.licenses ∧ d1.images = d.images ∧ ∀ x ∈ licenseIds d, x < n := by
  unfold getNewLicenseId generateNewId at h
  cases hm : listMax (licenseIds d ++ d.cachedLicenseIds) with
  | none => rw [hm] at h; exact Option.noConfusion h
  | some m =>
    rw [hm] at h
    simp only [Option.some.injEq, Prod.mk.injEq] at h
    obtain ⟨hn, hd⟩ := h
    subst hd
    refine ⟨rfl, rfl, ?_⟩
    intro x hx
    have hle : x ≤ m := listMax_le_of_mem hm (List.mem_append.mpr (Or.inl hx))
    omega

theorem licenseIds_trimCachedLicenseIds (x : COCO) :
    licenseIds (trimCachedLicenseIds x) = licenseIds x := rfl

theorem reindexLicenseCore_ids (d : COCO) (i : Nat) (n : Int) :
    licenseIds (reindexLicenseCore d i n) = (licenseIds d).set i n := by
  unfold reindexLicenseCore
  cases hli : d.licenses[i]? with
  | none =>
    simp only [hli]
    have hlen : d.licenses.length ≤ i := by
      rcases Nat.lt_or_ge i d.licenses.length with hlt | hge
      · rw [List.getElem?_eq_getElem hlt] at hli
        exact absurd hli (by simp)
      · exact hge
    have hlen2 : (licenseIds d).length ≤ i := by simpa [licenseIds] using hlen
    exact (List.set_eq_of_length_le hlen2).symm
  | some lic =>
    simp only [hli]
    show (d.licenses.set i { lic with id := n }).map License.id =
      (d.licenses.map License.id).set i n
    rw [List.map_set]

theorem reindexLicenseCore_length (d : COCO) (i : Nat) (n : Int) :
    (reindexLicenseCore d i n).licenses.length = d.licenses.length := by
  have h1 : (licenseIds (reindexLicenseCore d i n)).length = (licenseIds d).length := by
    rw [reindexLicenseCore_ids]; simp
  simpa [licenseIds] using h1

theorem displaceLicense_length (d : COCO) (nid : Int) :
    (displaceLicense d nid).licenses.length = d.licenses.length := by
  unfold displaceLicense
  split
  · cases hj : d.licenses.findIdx? (fun l => decide (l.id = nid)) with
    | none => simp only [hj]
    | some j =>
      cases hg : getNewLicenseId d with
      | none => simp only [hj, hg]
      | some p =>
        obtain ⟨n, d2⟩ := p
        simp only [hj, hg]
        rw [reindexLicenseCore_length, (getNewLicenseId_some hg).1]
  · rfl

theorem foldl_displace_length (ids : List Int) :
    ∀ d : COCO, ((ids.foldl displaceLicense d).licenses.length) = d.licenses.length := by
  induction ids with
  | nil => intro d; rfl
  | cons x xs ih => intro d; rw [List.foldl_cons, ih, displaceLicense_length]

theorem foldl_core_ids (ids : List Int) (ks : List Nat) :
    ∀ s : COCO,
      licenseIds (ks.foldl (fun t k =>
        match ids[k]? with
        | some n => reindexLicenseCore t k n
        | none => t) s) = ks.foldl (setStep ids) (licenseIds s) := by
  induction ks with
  | nil => intro s; rfl
  | cons k kt ih =>
    intro s
    rw [List.foldl_cons, List.foldl_cons, ih]
    congr 1
    unfold setStep
    cases hk : ids[k]? with
    | none => simp only [hk]
    | some n => simp only [hk]; rw [reindexLicenseCore_ids]

theorem setStep_length (ids st : List Int) (k : Nat) :
    (setStep ids st k).length = st.length := by
  unfold setStep
  cases ids[k]? <;> simp

theorem foldl_setStep_getElem (ids : List Int) :
    ∀ (ks : List Nat) (st : List Int), st.length = ids.length →
      ∀ k : Nat, (ks.foldl (setStep ids) st)[k]? =
        if k ∈ ks ∧ k < ids.length then ids[k]? else st[k]? := by
  intro ks
  induction ks with
  | nil => intro st hst k; simp
  | cons j kt ih =>
    intro st hst k
    rw [List.foldl_cons]
    have hst2 : (setStep ids st j).length = ids.length := by rw [setStep_length]; exact hst
    rw [ih (setStep ids st j) hst2 k]
    by_cases hk1 : k ∈ kt ∧ k < ids.length
    · rw [if_pos hk1, if_pos ⟨List.mem_cons_of_mem j hk1.1, hk1.2⟩]
    · rw [if_neg hk1]
      by_cases hkj : k = j
      · subst hkj
        by_cases hlt : k < ids.length
        · rw [if_pos ⟨List.mem_cons_self k kt, hlt⟩]
          unfold setStep
          cases hik : ids[k]? with
          | none =>
            rw [List.getElem?_eq_getElem hlt] at hik
            exact absurd hik (by simp)
          | some n =>
            simp only [hik]
            rw [List.getElem?_set, if_pos rfl, if_pos (by rw [hst]; exact hlt)]
        · rw [if_neg (fun hc => hlt hc.2)]
          have hnone : ids[k]? = none := List.getElem?_eq_none (Nat.le_of_not_lt hlt)
          unfold setStep
          rw [hnone]
      · have hstep : (setStep ids st j)[k]? = st[k]? := by
          unfold setStep
          cases hij : ids[j]? with
          | none => rfl
          | some n =>
            simp only [hij]
            rw [List.getElem?_set, if_neg (fun hc => hkj hc.symm)]
        rw [hstep]
        by_cases hkin : k ∈ j :: kt ∧ k < ids.length
        · exfalso
          rcases List.mem_cons.mp hkin.1 with h1 | h2
          · exact hkj h1
          · exact hk1 ⟨h2, hkin.2⟩
        · rw [if_neg hkin]

theorem foldl_setStep_range (ids st : List Int) (hst : st.length = ids.length) :
    (List.range ids.length).foldl (setStep ids) st = ids := by
  apply List.ext_getElem?
  intro k
  rw [foldl_setStep_getElem ids (List.range ids.length) st hst k]
  by_cases hk : k < ids.length
  · rw [if_pos ⟨List.mem_range.mpr hk, hk⟩]
  · rw [if_neg (fun hc => hk hc.2)]
    have h1 : ids[k]? = none := List.getElem?_eq_none (Nat.le_of_not_lt hk)
    have h2 : st[k]? = none := List.getElem?_eq_none (by rw [hst]; exact Nat.le_of_not_lt hk)
    rw [h1, h2]

theorem reindexLicenses_ids (d : COCO) (newIds : Option (List Int))
    (hlen : (effectiveIds d newIds).length = d.licenses.length) :
    licenseIds (reindexLicenses d newIds) = effectiveIds d newIds := by
  unfold reindexLicenses
  rw [if_neg (fun hc => hc hlen)]
  rw [foldl_core_ids (effectiveIds d newIds) (List.range (effectiveIds d newIds).length)]
  apply foldl_setStep_range
  have h1 : (licenseIds ((effectiveIds d newIds).foldl displaceLicense d)).length =
      d.licenses.length := by
    unfold licenseIds
    rw [List.length_map, foldl_displace_length]
  rw [h1]
  exact hlen.symm

theorem removeAnn_licenses (d : COCO) (a : Ann) : (removeAnn d a).licenses = d.licenses := by
  unfold removeAnn
  split
  · rfl
  · rfl

theorem removeAnnList_licenses (l : List Ann) :
    ∀ d : COCO, (removeAnnList d l).licenses = d.licenses := by
  induction l with
  | nil => intro d; rfl
  | cons x xs ih =>
    intro d
    unfold removeAnnList
    rw [List.foldl_cons]
    have := ih (removeAnn d x)
    unfold removeAnnList at this
    rw [this, removeAnn_licenses]

theorem removeImage_licenses (d : COCO) (im : Image) (c : Bool) :
    (removeImage d im c).licenses = d.licenses := by
  unfold removeImage
  split
  · split
    · rw [removeAnnList_licenses]
    · rfl
  · rfl

theorem removeImageList_licenses (ims : List Image) (c : Bool) :
    ∀ d : COCO, (removeImageList d ims c).licenses = d.licenses := by
  induction ims with
  | nil => intro d; rfl
  | cons x xs ih =>
    intro d
    unfold removeImageList
    rw [List.foldl_cons]
    have := ih (removeImage d x c)
    unfold removeImageList at this
    rw [this, removeImage_licenses]

theorem applyLOp_nodup (d : COCO) (op : LOp)
    (h : (licenseIds d).Nodup) (hop : safeLOp d op = true) :
    (licenseIds (applyLOp d op)).Nodup := by
  cases op with
  | append l =>
    have happ : applyLOp d (.append l) =
        match appendLicense d l with
        | .ok d2 => d2
        | .error _ => d := rfl
    rw [happ]
    unfold appendLicense
    by_cases hm : l.id ∈ licenseIds d
    · rw [if_pos hm]
      exact h
    · rw [if_neg hm]
      show (licenseIds (trimCachedLicenseIds { d with licenses := d.licenses ++ [l] })).Nodup
      rw [licenseIds_trimCachedLicenseIds]
      have hap : licenseIds { d with licenses := d.licenses ++ [l] } =
          licenseIds d ++ [l.id] := by
        unfold licenseIds
        simp
      rw [hap]
      simp [List.nodup_append, h, hm]
  | remove l ri ra =>
    have hrm : applyLOp d (.remove l ri ra) = removeLicense d l ri ra := rfl
    rw [hrm]
    unfold removeLicense
    have hres : ∀ x : COCO, x.licenses = d.licenses.erase l → (licenseIds x).Nodup := by
      intro x hx
      have hsub : List.Sublist (licenseIds x) (licenseIds d) := by
        unfold licenseIds
        rw [hx]
        exact (List.erase_sublist l d.licenses).map License.id
      exact h.sublist hsub
    by_cases hm : l ∈ d.licenses
    · rw [if_pos hm]
      split
      · apply hres
        rw [removeImageList_licenses]
      · apply hres
        rfl
    · rw [if_neg hm]
      exact h
  | reindex i newId =>
    cases newId with
    | some n =>
      have hops : safeLOp d (.reindex i (some n)) = decide (n ∉ licenseIds d) := rfl
      rw [hops] at hop
      have hn : n ∉ licenseIds d := of_decide_eq_true hop
      show (licenseIds (reindexLicenseCore d i n)).Nodup
      rw [reindexLicenseCore_ids]
      exact nodup_set_of_not_mem h hn
    | none =>
      unfold applyLOp reindexLicense
      cases hg : getNewLicenseId d with
      | none => simp only [hg]; exact h
      | some p =>
        obtain ⟨n, d1⟩ := p
        simp only [hg]
        obtain ⟨hl1, _, hbound⟩ := getNewLicenseId_some hg
        have hsame : licenseIds d1 = licenseIds d := by unfold licenseIds; rw [hl1]
        rw [reindexLicenseCore_ids, hsame]
        refine nodup_set_of_not_mem h ?_
        intro hc
        exact absurd (hbound n hc) (by omega)
  | reindexAll newIds =>
    show (licenseIds (reindexLicenses d newIds)).Nodup
    by_cases hlen : (effectiveIds d newIds).length = d.licenses.length
    · rw [reindexLicenses_ids d newIds hlen]
      cases newIds with
      | none => exact rangeInts_nodup _
      | some l =>
        by_cases hl : l = []
        · subst hl
          show (rangeInts d.licenses.length).Nodup
          exact rangeInts_nodup _
        · have hops : safeLOp d (.reindexAll (some l)) =
              decide ((effectiveIds d (some l)).Nodup) := rfl
          rw [hops] at hop
          exact of_decide_eq_true hop
    · unfold reindexLicenses
      rw [if_pos hlen]
      exact h

/-- Claim C2 as amended: starting from a license collection with no
duplicate ids, id uniqueness is preserved by any sequence of append,
remove, singular reindex whose explicit new id is not already held (or
whose id is freshly allocated), and plural reindex with a
duplicate-free (or defaulted) id list; the singular reindex does NOT
displace an occupant, so reindexing onto an occupied id breaks the
invariant. -/
theorem c2_id_uniqueness_amended (d : COCO) (ops : List LOp)
    (h : (licenseIds d).Nodup) (hs : safeSeq d ops = true) :
    (licenseIds (ops.foldl applyLOp d)).Nodup := by
  induction ops generalizing d with
  | nil => exact h
  | cons op rest ih =>
    rw [List.foldl_cons]
    have hcons : safeSeq d (op :: rest) = (safeLOp d op && safeSeq (applyLOp d op) rest) := rfl
    rw [hcons, Bool.and_eq_true] at hs
    exact ih (applyLOp d op) (applyLOp_nodup d op h hs.1) hs.2

theorem c2_id_uniqueness_witness :
    ((licenseIds dC2).Nodup ∧ safeSeq dC2 opsC2 = true) ∧
      (licenseIds (opsC2.foldl applyLOp dC2)).Nodup :=
  ⟨by decide, c2_id_uniqueness_amended dC2 opsC2 (by decide) (by decide)⟩

/-- Claim C2 counterexample: a singular `reindex_license` to a `new_id`
already held by another license does not displace the occupant - both
licenses end up with id 1, violating id uniqueness. -/
theorem c2_singular_reindex_creates_duplicate :
    licenseIds (applyLOp dC2 (LOp.reindex 0 (some 1))) = [1, 1] ∧
      ¬ (licenseIds (applyLOp dC2 (LOp.reindex 0 (some 1)))).Nodup := by
  constructor
  · decide
  · decide

theorem exMapM_ok_of_forall {α β : Type} (f : α → Except String β) :
    ∀ l : List α, (∀ x ∈ l, ∃ y, f x = .ok y) → ∃ ys, exMapM f l = .ok ys := by
  intro l
  induction l with
  | nil => intro _; exact ⟨[], rfl⟩
  | cons a as ih =>
    intro h
    obtain ⟨y, hy⟩ := h a (List.mem_cons_self a as)
    obtain ⟨ys, hys⟩ := ih (fun x hx => h x (List.mem_cons_of_mem a hx))
    refine ⟨y :: ys, ?_⟩
    show (f a >>= fun z => exMapM f as >>= fun zs => pure (z :: zs)) = .ok (y :: ys)
    rw [hy, hys]
    rfl

theorem exMapM_error_head {α β : Type} (f : α → Except String β) (x : α) (xs : List α)
    (e : String) (h : f x = .error e) : exMapM f (x :: xs) = .error e := by
  show (f x >>= fun z => exMapM f xs >>= fun zs => pure (z :: zs)) = .error e
  rw [h]
  rfl

theorem getLicense_byImage_ok (d : COCO) (im : Image)
    (him : im ∈ d.images) (hl : ∃ l ∈ d.licenses, l.id = im.license) :
    ∃ lic, getLicense d (.byImage im) = .ok (some lic) ∧ lic ∈ d.licenses := by
  have heq : getLicense d (.byImage im) =
      (if im ∈ d.images then
        match d.licenses.find? (fun l => decide (l.id = im.license)) with
        | some l => .ok (some l)
        | none => .error stopIterMsg
      else .ok none) := rfl
  obtain ⟨l0, hl0, hid0⟩ := hl
  have hsome : (d.licenses.find? (fun l => decide (l.id = im.license))).isSome :=
    List.find?_isSome.mpr ⟨l0, hl0, by simp [hid0]⟩
  obtain ⟨lic, hlic⟩ := Option.isSome_iff_exists.mp hsome
  refine ⟨lic, ?_, List.mem_of_find?_eq_some hlic⟩
  rw [heq, if_pos him, hlic]

theorem getLicenses_ok (d : COCO) (ims : List Image)
    (h : ∀ im ∈ ims, im ∈ d.images ∧ ∃ l ∈ d.licenses, l.id = im.license) :
    ∃ ls, getLicenses d ims = .ok ls := by
  obtain ⟨ids, hids⟩ := exMapM_ok_of_forall
    (fun im => do
      match (← getLicense d (.byImage im)) with
      | some l => pure l.id
      | none => Except.error attrErrorMsg) ims
    (fun im him => by
      obtain ⟨lic, hlic, _⟩ := getLicense_byImage_ok d im (h im him).1 (h im him).2
      refine ⟨lic.id, ?_⟩
      show (getLicense d (.byImage im) >>= fun r =>
        match r with
        | some l => pure l.id
        | none => Except.error attrErrorMsg) = .ok lic.id
      rw [hlic]
      rfl)
  refine ⟨(setDedup ids).filterMap (fun i => d.licenses.find? (fun l => decide (l.id = i))), ?_⟩
  unfold getLicenses
  rw [hids]
  rfl

theorem getCategories_byImages_ok (d : COCO) (ims : List Image) :
    ∃ cs, getCategories d (.byImages ims) = .ok cs := by
  have heq : getCategories d (.byImages ims) =
      (if ¬ categoriesTruthy d.categories then .ok []
       else .ok ((catList d).filter
         (fun c => decide (Category.id c ∈ annsCategoryIds (annsOfImages d ims))))) := rfl
  rw [heq]
  split
  · exact ⟨[], rfl⟩
  · exact ⟨_, rfl⟩

theorem mkPart_ok (d : COCO) (sub : List Image)
    (h : ∀ im ∈ sub, im ∈ d.images ∧ ∃ l ∈ d.licenses, l.id = im.license) :
    ∃ A, mkPart d sub = .ok A ∧ A.images = sub ∧ COCO.anns A = annsOfImages d sub := by
  obtain ⟨ls, hls⟩ := getLicenses_ok d sub h
  obtain ⟨cs, hcs⟩ := getCategories_byImages_ok d sub
  refine ⟨{ info := d.info, licenses := ls, categories := some cs, images := sub,
            anns := annsOfImages d sub }, ?_, rfl, rfl⟩
  unfold mkPart
  rw [hls, hcs]
  rfl

/-- Claim C9 as amended: on a dataset of 10 images with pairwise distinct
ids in which every image's license id and every record's image id
resolve, `split(0.3, seed)` - for every possible shuffle result, hence
also for the seed-42 one - returns two datasets whose image counts are 3
and 7 (summing to 10), and every record belongs to a part exactly when
its `image_id` is among that part's image ids, landing in exactly one of
the two parts. -/
theorem c9_split_partition_amended (d : COCO) (shuffled : List Image)
    (h10 : d.images.length = 10)
    (hnd : (imageIds d).Nodup)
    (hlic : ∀ im ∈ d.images, ∃ l ∈ d.licenses, l.id = im.license)
    (hann : ∀ a ∈ COCO.anns d, Ann.image_id a ∈ imageIds d)
    (hperm : shuffled.Perm d.images) :
    ∃ A B, splitDataset d shuffled (3 / 10) = .ok (A, B) ∧
      A.images.length = 3 ∧ B.images.length = 7 ∧
      A.images.length + B.images.length = d.images.length ∧
      ∀ a ∈ COCO.anns d,
        (a ∈ COCO.anns A ↔ Ann.image_id a ∈ imageIds A) ∧
        (a ∈ COCO.anns B ↔ Ann.image_id a ∈ imageIds B) ∧
        (Ann.image_id a ∈ imageIds A ↔ Ann.image_id a ∉ imageIds B) := by
  have hsl : shuffled.length = 10 := by rw [hperm.length_eq, h10]
  have hsubP : ∀ im ∈ shuffled, im ∈ d.images := fun im him => hperm.mem_iff.mp him
  have hTake : ∀ im ∈ shuffled.take 3,
      im ∈ d.images ∧ ∃ l ∈ d.licenses, l.id = im.license := by
    intro im him
    have h1 : im ∈ d.images := hsubP im (List.take_subset 3 shuffled him)
    exact ⟨h1, hlic im h1⟩
  have hDrop : ∀ im ∈ shuffled.drop 3,
      im ∈ d.images ∧ ∃ l ∈ d.licenses, l.id = im.license := by
    intro im him
    have h1 : im ∈ d.images := hsubP im (List.drop_subset 3 shuffled him)
    exact ⟨h1, hlic im h1⟩
  obtain ⟨A, hA, hAimg, hAanns⟩ := mkPart_ok d (shuffled.take 3) hTake
  obtain ⟨B, hB, hBimg, hBanns⟩ := mkPart_ok d (shuffled.drop 3) hDrop
  have hpoint : (⌊(d.images.length : ℚ) * (3 / 10)⌋).toNat = 3 := by
    rw [h10]
    have hq : ((10 : Nat) : ℚ) * (3 / 10) = 3 := by norm_num
    rw [hq]
    simp
  have hsplit : splitDataset d shuffled (3 / 10) = .ok (A, B) := by
    unfold splitDataset
    rw [if_neg (by norm_num)]
    rw [hpoint, hA, hB]
    rfl
  have hidA : imageIds A = (shuffled.take 3).map Image.id := by
    unfold imageIds
    rw [hAimg]
  have hidB : imageIds B = (shuffled.drop 3).map Image.id := by
    unfold imageIds
    rw [hBimg]
  refine ⟨A, B, hsplit, ?_, ?_, ?_, ?_⟩
  · rw [hAimg, List.length_take, hsl]
    omega
  · rw [hBimg, List.length_drop, hsl]
  · rw [hAimg, hBimg, List.length_take, List.length_drop, hsl, h10]
    omega
  · intro a ha
    have hxmem : Ann.image_id a ∈ shuffled.map Image.id :=
      (hperm.map Image.id).mem_iff.mpr (hann a ha)
    have hnds : (shuffled.map Image.id).Nodup := ((hperm.map Image.id).nodup_iff).mpr hnd
    have hdecomp : shuffled.map Image.id =
        (shuffled.take 3).map Image.id ++ (shuffled.drop 3).map Image.id := by
      rw [← List.map_append, List.take_append_drop]
    have hdisj : List.Disjoint ((shuffled.take 3).map Image.id)
        ((shuffled.drop 3).map Image.id) := by
      have hh := hnds
      rw [hdecomp] at hh
      exact (List.nodup_append.mp hh).2.2
    have hAiff : a ∈ COCO.anns A ↔ Ann.image_id a ∈ imageIds A := by
      rw [hAanns, hidA]
      unfold annsOfImages
      constructor
      · intro hmem
        have := (List.mem_filter.mp hmem).2
        simpa using this
      · intro hmem
        exact List.mem_filter.mpr ⟨ha, by simpa using hmem⟩
    have hBiff : a ∈ COCO.anns B ↔ Ann.image_id a ∈ imageIds B := by
      rw [hBanns, hidB]
      unfold annsOfImages
      constructor
      · intro hmem
        have := (List.mem_filter.mp hmem).2
        simpa using this
      · intro hmem
        exact List.mem_filter.mpr ⟨ha, by simpa using hmem⟩
    refine ⟨hAiff, hBiff, ?_⟩
    rw [hidA, hidB]
    constructor
    · intro hT hD
      exact hdisj hT hD
    · intro hD
      rw [hdecomp] at hxmem
      rcases List.mem_append.mp hxmem with h1 | h2
      · exact h1
      · exact absurd h2 hD

theorem c9_split_partition_witness :
    (dC9.images.length = 10 ∧ (imageIds dC9).Nodup ∧
      (∀ im ∈ dC9.images, ∃ l ∈ dC9.licenses, l.id = im.license) ∧
      (∀ a ∈ COCO.anns dC9, Ann.image_id a ∈ imageIds dC9) ∧
      imgsC9.Perm dC9.images) ∧
    (∃ A B, splitDataset dC9 imgsC9 (3 / 10) = .ok (A, B) ∧
      A.images.length = 3 ∧ B.images.length = 7 ∧
      A.images.length + B.images.length = dC9.images.length ∧
      ∀ a ∈ COCO.anns dC9,
        (a ∈ COCO.anns A ↔ Ann.image_id a ∈ imageIds A) ∧
        (a ∈ COCO.anns B ↔ Ann.image_id a ∈ imageIds B) ∧
        (Ann.image_id a ∈ imageIds A ↔ Ann.image_id a ∉ imageIds B)) :=
  ⟨⟨by decide, by decide, by decide, by decide, List.Perm.refl imgsC9⟩,
   c9_split_partition_amended dC9 imgsC9 (by decide) (by decide) (by decide) (by decide)
     (List.Perm.refl imgsC9)⟩

/-- Claim C9 counterexample: on a 10-image dataset with pairwise
distinct image ids whose license references dangle, `split(0.3, seed)`
raises (a `get_licenses` lookup exhausts its generator) for every
possible shuffle result instead of returning two datasets. -/
theorem c9_split_raises_on_dangling_license : splitFailsAllPerms dC9bad (3 / 10) := by
  intro l hperm r
  unfold splitDataset
  rw [if_neg (by norm_num)]
  have hpoint : (⌊(dC9bad.images.length : ℚ) * (3 / 10)⌋).toNat = 3 := by
    show (⌊((10 : Nat) : ℚ) * (3 / 10)⌋).toNat = 3
    have hq : ((10 : Nat) : ℚ) * (3 / 10) = 3 := by norm_num
    rw [hq]
    simp
  rw [hpoint]
  have hlen : l.length = 10 := by
    rw [hperm.length_eq]
    rfl
  cases hl : l with
  | nil =>
    rw [hl] at hlen
    exact absurd hlen (by decide)
  | cons x xs =>
    have hxmem : x ∈ dC9bad.images := hperm.mem_iff.mp (hl ▸ List.mem_cons_self x xs)
    have hglx : getLicense dC9bad (.byImage x) = .error stopIterMsg := by
      have heq : getLicense dC9bad (.byImage x) =
          (if x ∈ dC9bad.images then
            match dC9bad.licenses.find? (fun l2 => decide (l2.id = x.license)) with
            | some l2 => .ok (some l2)
            | none => .error stopIterMsg
          else .ok none) := rfl
      rw [heq, if_pos hxmem]
      rfl
    have hstep : exMapM (fun im => do
        match (← getLicense dC9bad (.byImage im)) with
        | some l2 => pure l2.id
        | none => Except.error attrErrorMsg) ((x :: xs).take 3) = .error stopIterMsg := by
      show exMapM _ (x :: xs.take 2) = _
      apply exMapM_error_head
      show (getLicense dC9bad (.byImage x) >>= fun r =>
        match r with
        | some l2 => pure l2.id
        | none => Except.error attrErrorMsg) = Except.error stopIterMsg
      rw [hglx]
      rfl
    have hmk : mkPart dC9bad ((x :: xs).take 3) = .error stopIterMsg := by
      unfold mkPart getLicenses
      rw [hstep]
      rfl
    rw [hmk]
    intro hc
    exact Except.noConfusion hc
